import Mathlib

/-!
Shallow embedding of the TravelMap component (src/src/TravelMap.tsx) and
proofs of the specification's claims about it.

Conventions of the embedding:
* JavaScript strings are Lean `String`s; `toLowerCase` is `jsToLower`,
  character-wise `Char.toLower` (both the embedded code and the spec-side
  predicates use the same lowercasing function, so every statement below is
  independent of the exact case table).
* `s.includes(t)` is `strIncludes s t`: a contiguous-substring test on the
  underlying character lists.
* JS `null`/`undefined` for optional fields is `Option`.
* Coordinates are rationals (latitude, longitude).
* JS truthiness on strings (`if (searchTerm)`, `if (filterCategory)`,
  `e.target.value || null`) is modelled explicitly: a string is truthy iff
  it is nonempty; a `string | null` is truthy iff it is `some` of a
  nonempty string.
-/

namespace TravelMap

/-- Decides whether `t` occurs as a contiguous sublist of `s`
(JS `s.includes(t)` on character lists). -/
def listInfix (t s : List Char) : Bool :=
  match s with
  | [] => t.isEmpty
  | _ :: s' => t.isPrefixOf s || listInfix t s'

/-- JS `s.includes(t)`: `t` is a contiguous substring of `s`. -/
def strIncludes (s t : String) : Bool :=
  listInfix t.data s.data

/-- JS `s.toLowerCase()`, character-wise lowercasing. -/
def jsToLower (s : String) : String :=
  String.mk (s.data.map Char.toLower)

/-- The `language` prop: `'zh' | 'en'`. -/
inductive Language where
  | zh : Language
  | en : Language
deriving DecidableEq

/-- The `Location` interface of TravelMap.tsx. -/
structure Location where
  id : Int
  name : String
  nameEn : String
  coordinates : ℚ × ℚ
  description : String
  descriptionEn : String
  visitDate : String
  image : Option String := none
  category : Option String := none
  rating : Option Int := none
  blogUrl : Option String := none
  shortName : Option String := none
deriving DecidableEq

/-- The `MapStyle` interface of TravelMap.tsx. -/
structure MapStyle where
  name : String
  url : String
  attribution : String
deriving DecidableEq

/-- The `defaultMapStyles` catalog of TravelMap.tsx (4 entries). -/
def defaultMapStyles : List MapStyle :=
  [ { name := "Standard",
      url := "https://{s}.tile.openstreetmap.org/{z}/{x}/{y}.png",
      attribution := "&copy; <a href=\"https://www.openstreetmap.org/copyright\">OpenStreetMap</a> contributors" },
    { name := "Dark",
      url := "https://{s}.basemaps.cartocdn.com/dark_all/{z}/{x}/{y}{r}.png",
      attribution := "&copy; <a href=\"https://www.openstreetmap.org/copyright\">OpenStreetMap</a> contributors &copy; <a href=\"https://carto.com/attributions\">CARTO</a>" },
    { name := "Terrain",
      url := "https://server.arcgisonline.com/ArcGIS/rest/services/World_Topo_Map/MapServer/tile/{z}/{y}/{x}",
      attribution := "Tiles &copy; Esri &mdash; Esri, DeLorme, NAVTEQ, TomTom, Intermap, iPC, USGS, FAO, NPS, NRCAN, GeoBase, Kadaster NL, Ordnance Survey, Esri Japan, METI, Esri China (Hong Kong), and the GIS User Community" },
    { name := "Satellite",
      url := "https://server.arcgisonline.com/ArcGIS/rest/services/World_Imagery/MapServer/tile/{z}/{y}/{x}",
      attribution := "Tiles &copy; Esri &mdash; Source: Esri, i-cubed, USDA, USGS, AEX, GeoEye, Getmapping, Aerogrid, IGN, IGP, UPR-EGP, and the GIS User Community" } ]

/-- The `TravelMapProps` interface (with the component's default values). -/
structure TravelMapProps where
  locations : List Location := []
  defaultZoom : Int := 5
  defaultCenter : ℚ × ℚ := (35, 105)
  language : Language := Language.zh
  enableSearch : Bool := true
  enableFilter : Bool := true
  mapStyles : List MapStyle := defaultMapStyles
deriving DecidableEq

/-- The search step of the filter `useEffect` (lines 143-151):
`if (searchTerm) { const term = searchTerm.toLowerCase(); filtered =
filtered.filter(loc => loc.name.toLowerCase().includes(term) || ...) }`.
An empty `searchTerm` is falsy, so no filtering happens then. -/
def textFilter (searchTerm : String) (locs : List Location) : List Location :=
  if searchTerm = "" then locs
  else
    let term := jsToLower searchTerm
    locs.filter fun loc =>
      strIncludes (jsToLower loc.name) term ||
      strIncludes (jsToLower loc.nameEn) term ||
      strIncludes (jsToLower loc.description) term ||
      strIncludes (jsToLower loc.descriptionEn) term

/-- The category step of the filter `useEffect` (lines 154-156):
`if (filterCategory) { filtered = filtered.filter(loc => loc.category ===
filterCategory) }`. JS truthiness: `null` and `""` are falsy. -/
def categoryFilter (filterCategory : Option String) (locs : List Location) : List Location :=
  match filterCategory with
  | none => locs
  | some c => if c = "" then locs else locs.filter fun loc => loc.category == some c

/-- The whole filter `useEffect` body (lines 139-159): start from a copy of
`locations`, apply the search filter, then the category filter. -/
def computeFiltered (locations : List Location) (searchTerm : String)
    (filterCategory : Option String) : List Location :=
  categoryFilter filterCategory (textFilter searchTerm locations)

/-- The category select `onChange` handler (line 201):
`setFilterCategory(e.target.value || null)` — the empty option becomes
`null`, any other value is stored as-is. -/
def selectCategory (v : String) : Option String :=
  if v = "" then none else some v

/-- Spec-side text predicate, written from the spec's words: a location is
visible iff the term is empty or the lowercased term is a substring of at
least one of the four lowercased fields. -/
def specTextVisible (t : String) (l : Location) : Bool :=
  (t == "") ||
  strIncludes (jsToLower l.name) (jsToLower t) ||
  strIncludes (jsToLower l.nameEn) (jsToLower t) ||
  strIncludes (jsToLower l.description) (jsToLower t) ||
  strIncludes (jsToLower l.descriptionEn) (jsToLower t)

/-- Spec-side category predicate, written from the spec's words: visible iff
`c` is null or `l.category` equals `c` exactly (case-sensitive). -/
def specCategoryVisible (c : Option String) (l : Location) : Bool :=
  match c with
  | none => true
  | some s => l.category == some s

theorem textFilter_filter_eq (L : List Location) (t : String) :
    textFilter t L = L.filter (specTextVisible t) := by
  unfold textFilter specTextVisible
  by_cases h : t = ""
  · subst h
    simp
  · simp only [if_neg h]
    refine (List.filter_congr ?_).symm
    intro l _
    have ht : (t == "") = false := by
      simp [h]
    simp [ht]

/-- C1: For every location sequence L and search term t, the filtered result
of the text-filter step equals exactly the sublist of locations l in L such
that t is empty or the lowercased t is a substring of at least one of the
lowercased fields name, nameEn, description, descriptionEn (OR across the
four fields). -/
theorem text_filter_is_spec_sublist (L : List Location) (t : String) :
    textFilter t L = L.filter (specTextVisible t) :=
  textFilter_filter_eq L t

example :
    textFilter "sha"
      [ { id := 1, name := "n", nameEn := "Shanghai",
          coordinates := (31, 121), description := "x", descriptionEn := "y",
          visitDate := "2020" } ] =
      [ { id := 1, name := "n", nameEn := "Shanghai",
          coordinates := (31, 121), description := "x", descriptionEn := "y",
          visitDate := "2020" } ] := by decide

/-- C2: For every location sequence L, search term t, and selected category c
(a value the category select can actually store, i.e. never `some ""`), the
visible subset equals the locations passing the text filter AND the category
filter: the combined predicate is the intersection of the two filters. -/
theorem combined_filter_is_intersection (L : List Location) (t : String)
    (c : Option String) (hc : c ≠ some "") :
    computeFiltered L t c =
      L.filter (fun l => specTextVisible t l && specCategoryVisible c l) := by
  unfold computeFiltered categoryFilter
  cases c with
  | none =>
      simp [textFilter_filter_eq, specCategoryVisible]
  | some s =>
      have hs : ¬ s = "" := fun h => hc (by rw [h])
      simp only [if_neg hs]
      rw [textFilter_filter_eq, List.filter_filter]
      refine List.filter_congr ?_
      intro l _
      simp [specCategoryVisible, Bool.and_comm]

/-- Witness for C2 at a concrete input: a two-location list, search term
"sha", selected category "travel". -/
theorem combined_filter_is_intersection_witness :
    computeFiltered
      [ { id := 1, name := "a", nameEn := "Shanghai", coordinates := (31, 121),
          description := "d", descriptionEn := "e", visitDate := "v",
          category := some "travel" },
        { id := 2, name := "b", nameEn := "Beijing", coordinates := (39, 116),
          description := "d", descriptionEn := "e", visitDate := "v",
          category := some "home" } ]
      "sha" (some "travel") =
      [ { id := 1, name := "a", nameEn := "Shanghai", coordinates := (31, 121),
          description := "d", descriptionEn := "e", visitDate := "v",
          category := some "travel" } ] :=
  (combined_filter_is_intersection _ "sha" (some "travel") (by decide)).trans
    (by decide)

/-- First-seen-order deduplication with an accumulator of already-seen
values: the iteration order of a JS `Set` built from a list. -/
def jsSetDedupAux {α : Type} [DecidableEq α] (seen : List α) : List α → List α
  | [] => []
  | a :: rest =>
      if a ∈ seen then jsSetDedupAux seen rest
      else a :: jsSetDedupAux (a :: seen) rest

/-- First-seen-order deduplication, the iteration order of a JS `Set` built
from a list (`Array.from(new Set(xs))`). -/
def jsSetDedup {α : Type} [DecidableEq α] (l : List α) : List α :=
  jsSetDedupAux [] l

/-- Filter-style recursive characterization of first-seen deduplication,
used as a proof intermediary. -/
def dedupRec {α : Type} [DecidableEq α] : List α → List α
  | [] => []
  | a :: rest => a :: dedupRec (rest.filter fun x => x ≠ a)
termination_by l => l.length
decreasing_by
  simp only [List.length_cons]
  exact Nat.lt_succ_of_le (List.length_filter_le _ _)

theorem jsSetDedupAux_eq_dedupRec {α : Type} [DecidableEq α]
    (l : List α) : ∀ seen : List α,
    jsSetDedupAux seen l = dedupRec (l.filter fun x => decide (x ∉ seen)) := by
  induction l with
  | nil => intro seen; simp [jsSetDedupAux, dedupRec]
  | cons a rest ih =>
      intro seen
      by_cases ha : a ∈ seen
      · simp [jsSetDedupAux, List.filter_cons, ha, ih seen]
      · have hfc : (a :: rest).filter (fun x => decide (x ∉ seen)) =
            a :: rest.filter fun x => decide (x ∉ seen) := by
          simp [List.filter_cons, ha]
        rw [hfc, jsSetDedupAux, if_neg ha, dedupRec, ih (a :: seen),
          List.filter_filter]
        have hpred : (rest.filter fun x => decide (x ∉ a :: seen)) =
            rest.filter fun x => decide (x ≠ a) && decide (x ∉ seen) := by
          refine List.filter_congr ?_
          intro x _
          simp [List.mem_cons, not_or]
        rw [hpred]

theorem jsSetDedup_eq_dedupRec {α : Type} [DecidableEq α] (l : List α) :
    jsSetDedup l = dedupRec l := by
  rw [jsSetDedup, jsSetDedupAux_eq_dedupRec l []]
  congr 1
  simp

/-- JS `filter(Boolean)` on an optional-string value: keeps only values that
are present and nonempty (`undefined` and `""` are falsy). -/
def truthyString (o : Option String) : Option String :=
  match o with
  | none => none
  | some s => if s = "" then none else some s

/-- The category dropdown's option list (line 210):
`Array.from(new Set(locations.map(loc => loc.category))).filter(Boolean)` —
it is computed from the full `locations` prop, not the filtered list. -/
def categoryOptions (locations : List Location) : List String :=
  (jsSetDedup (locations.map fun loc => loc.category)).filterMap truthyString

/-- Spec-side option list, written from the spec's words: the distinct,
non-empty `category` values occurring in the full unfiltered sequence, in
order of first occurrence, with no duplicates. -/
def specCategoryOptions (locations : List Location) : List String :=
  jsSetDedup ((locations.filterMap fun loc => loc.category).filter fun s => s ≠ "")

theorem filter_filterMap_comm {α β : Type} (f : α → Option β) (p : α → Bool)
    (q : β → Bool) (h : ∀ x y, f x = some y → q y = p x) :
    ∀ l : List α, (l.filterMap f).filter q = (l.filter p).filterMap f := by
  intro l
  induction l with
  | nil => simp
  | cons x l ih =>
      cases hfx : f x with
      | none =>
          cases hpx : p x with
          | true => simp [hfx, hpx, ih]
          | false => simp [hfx, hpx, ih]
      | some y =>
          have hq : q y = p x := h x y hfx
          cases hpx : p x with
          | true => simp [hfx, hpx, hq, ih]
          | false => simp [hfx, hpx, hq, ih]

theorem dedupRec_filterMap {α β : Type} [DecidableEq α] [DecidableEq β]
    (f : α → Option β)
    (hinj : ∀ a₁ a₂ b, f a₁ = some b → f a₂ = some b → a₁ = a₂) :
    ∀ l : List α, (dedupRec l).filterMap f = dedupRec (l.filterMap f)
  | [] => by simp [dedupRec]
  | a :: rest => by
      rw [dedupRec]
      cases hfa : f a with
      | none =>
          have hstep : (rest.filter fun x => x ≠ a).filterMap f =
              rest.filterMap f := by
            have := filter_filterMap_comm f (fun x => decide (x ≠ a))
              (fun _ => true) ?_ rest
            · simpa using this.symm
            · intro x y hxy
              have hxa : x ≠ a := by
                intro hx
                rw [hx, hfa] at hxy
                exact Option.noConfusion hxy
              simp [hxa]
          rw [List.filterMap_cons, hfa,
            dedupRec_filterMap f hinj (rest.filter fun x => x ≠ a), hstep,
            List.filterMap_cons, hfa]
      | some b =>
          have hstep : (rest.filter fun x => x ≠ a).filterMap f =
              (rest.filterMap f).filter fun y => y ≠ b := by
            refine (filter_filterMap_comm f (fun x => decide (x ≠ a))
              (fun y => decide (y ≠ b)) ?_ rest).symm
            intro x y hxy
            by_cases hx : x = a
            · subst hx
              rw [hfa] at hxy
              have hb := Option.some_inj.mp hxy
              subst hb
              simp
            · have hy : y ≠ b := by
                intro hyb
                subst hyb
                exact hx (hinj x a y hxy hfa)
              simp [hx, hy]
          rw [List.filterMap_cons, hfa,
            dedupRec_filterMap f hinj (rest.filter fun x => x ≠ a), hstep,
            List.filterMap_cons, hfa, dedupRec]
termination_by l => l.length
decreasing_by
  all_goals
    simp only [List.length_cons]
    exact Nat.lt_succ_of_le (List.length_filter_le _ _)

theorem truthyString_inj (o₁ o₂ : Option String) (s : String)
    (h₁ : truthyString o₁ = some s) (h₂ : truthyString o₂ = some s) :
    o₁ = o₂ := by
  cases o₁ with
  | none => exact absurd h₁ (by simp [truthyString])
  | some a =>
      cases o₂ with
      | none => exact absurd h₂ (by simp [truthyString])
      | some b =>
          unfold truthyString at h₁ h₂
          by_cases ha : a = "" <;> by_cases hb : b = "" <;>
            simp [ha, hb] at h₁ h₂ <;> simp [h₁, h₂]

theorem filterMap_truthy_of_map (L : List Location) :
    (L.map fun loc => loc.category).filterMap truthyString =
      (L.filterMap fun loc => loc.category).filter fun s => s ≠ "" := by
  induction L with
  | nil => simp
  | cons l L ih =>
      cases hc : l.category with
      | none => simp [hc, truthyString, ih]
      | some s =>
          by_cases hs : s = ""
          · simp [hc, truthyString, hs, ih]
          · simp [hc, truthyString, hs, ih]

theorem categoryOptions_eq_spec (L : List Location) :
    categoryOptions L = specCategoryOptions L := by
  unfold categoryOptions specCategoryOptions
  rw [jsSetDedup_eq_dedupRec, jsSetDedup_eq_dedupRec,
    dedupRec_filterMap truthyString truthyString_inj, filterMap_truthy_of_map]

example : categoryOptions
    [ { id := 1, name := "a", nameEn := "a", coordinates := (0, 0),
        description := "d", descriptionEn := "d", visitDate := "v",
        category := some "travel" },
      { id := 2, name := "b", nameEn := "b", coordinates := (0, 0),
        description := "d", descriptionEn := "d", visitDate := "v",
        category := some "" },
      { id := 3, name := "c", nameEn := "c", coordinates := (0, 0),
        description := "d", descriptionEn := "d", visitDate := "v" },
      { id := 4, name := "e", nameEn := "e", coordinates := (0, 0),
        description := "d", descriptionEn := "d", visitDate := "v",
        category := some "home" },
      { id := 5, name := "f", nameEn := "f", coordinates := (0, 0),
        description := "d", descriptionEn := "d", visitDate := "v",
        category := some "travel" } ] = ["travel", "home"] := by decide

/-- The `renderRating` helper (lines 129-136):
`Array(5).fill(0).map((_, index) => <span style=color: index < rating ? gold
: grey>★</span>)` — a list of 5 star slots, `true` for a filled (gold) star,
`false` for an empty (grey) one. The default argument 0 is irrelevant here:
every call site passes a value. -/
def renderRating (rating : Int) : List Bool :=
  (List.range 5).map fun (index : ℕ) => decide ((index : Int) < rating)

/-- Number of filled stars `renderRating` produces. -/
def filledStars (rating : Int) : Nat :=
  (renderRating rating).count true

/-- C5 counterexample: at rating 6 the routine renders 5 filled stars, not 6,
so the filled-star count is not `r` uncapped. -/
theorem filled_stars_not_uncapped : ¬ ((filledStars 6 : Int) = 6) := by
  decide

/-- C5 amended: for every rating value r, the number of filled stars equals
r clamped to [0, 5] (`min (max r 0) 5`): the routine renders only 5 slots,
so the count is capped at 5 and floors at 0, and equals r only inside that
range. -/
theorem filled_stars_clamped (r : Int) :
    (filledStars r : Int) = min (max r 0) 5 := by
  unfold filledStars renderRating
  rw [show List.range 5 = [0, 1, 2, 3, 4] from rfl]
  rcases le_or_lt r 0 with h | h
  · have hf : ∀ i : ℕ, decide ((i : Int) < r) = false := by
      intro i
      simp only [decide_eq_false_iff_not, not_lt]
      exact h.trans (Int.ofNat_nonneg i)
    simp only [List.map_cons, List.map_nil, hf, List.count_cons, List.count_nil]
    simp
    omega
  · rcases le_or_lt 5 r with h5 | h5
    · have hf : ∀ i : ℕ, i < 5 → decide ((i : Int) < r) = true := by
        intro i hi
        simp only [decide_eq_true_eq]
        omega
      simp only [List.map_cons, List.map_nil, hf 0 (by omega), hf 1 (by omega),
        hf 2 (by omega), hf 3 (by omega), hf 4 (by omega),
        List.count_cons, List.count_nil]
      simp
      omega
    · interval_cases r <;> decide

/-- C6: For every rating value r, the star display is exactly 5 slots, and
the slot at index i (0-based) is filled iff i < r; no bounds check is
applied to r. -/
theorem star_slots_spec (r : Int) :
    (renderRating r).length = 5 ∧
      ∀ i : Nat, i < 5 → (renderRating r).getD i false = decide ((i : Int) < r) := by
  constructor
  · unfold renderRating
    rw [List.length_map, List.length_range]
  · intro i hi
    unfold renderRating
    rw [show List.range 5 = [0, 1, 2, 3, 4] from rfl]
    interval_cases i <;> rfl

/-- Witness for C6 at rating 3, slot 2. -/
theorem star_slots_spec_witness :
    (renderRating 3).length = 5 ∧
      (renderRating 3).getD 2 false = decide ((2 : Int) < 3) :=
  ⟨(star_slots_spec 3).1, (star_slots_spec 3).2 2 (by decide)⟩

/-- A Leaflet `LatLngBounds`: south/west are the minima, north/east the
maxima over the contained points. -/
structure LatLngBounds where
  south : ℚ
  west : ℚ
  north : ℚ
  east : ℚ
deriving DecidableEq

/-- A bounds box contains a (latitude, longitude) point. -/
def LatLngBounds.containsPt (b : LatLngBounds) (p : ℚ × ℚ) : Prop :=
  b.south ≤ p.1 ∧ p.1 ≤ b.north ∧ b.west ≤ p.2 ∧ p.2 ≤ b.east

instance (b : LatLngBounds) (p : ℚ × ℚ) : Decidable (b.containsPt p) := by
  unfold LatLngBounds.containsPt
  infer_instance

/-- `L.latLngBounds(points)` on a nonempty list `p :: ps`: the box whose
sides are the minima/maxima of the coordinates. -/
def latLngBoundsOf (p : ℚ × ℚ) (ps : List (ℚ × ℚ)) : LatLngBounds :=
  { south := ps.foldl (fun acc q => min acc q.1) p.1
    north := ps.foldl (fun acc q => max acc q.1) p.1
    west := ps.foldl (fun acc q => min acc q.2) p.2
    east := ps.foldl (fun acc q => max acc q.2) p.2 }

/-- The state of the Leaflet map camera as this component drives it: either
the initial center/zoom view, or framed to a bounds box with a pixel
padding. -/
inductive MapView where
  | view (center : ℚ × ℚ) (zoom : Int) : MapView
  | fitted (bounds : LatLngBounds) (padding : Int × Int) : MapView
deriving DecidableEq

/-- The `FitBoundsToLocations` effect (lines 87-98): if the location list is
nonempty, build the `latLngBounds` of all coordinates and call
`map.fitBounds(bounds, { padding: [50, 50] })`; otherwise do nothing. -/
def fitBoundsToLocations (locations : List Location) (current : MapView) : MapView :=
  match locations with
  | [] => current
  | l :: ls =>
      MapView.fitted (latLngBoundsOf l.coordinates (ls.map fun x => x.coordinates))
        (50, 50)

theorem foldl_min_le_init {α : Type} (f : α → ℚ) (l : List α) :
    ∀ a : ℚ, l.foldl (fun acc x => min acc (f x)) a ≤ a := by
  induction l with
  | nil => intro a; exact le_refl a
  | cons x l ih =>
      intro a
      calc (x :: l).foldl (fun acc y => min acc (f y)) a
          = l.foldl (fun acc y => min acc (f y)) (min a (f x)) := rfl
        _ ≤ min a (f x) := ih _
        _ ≤ a := min_le_left _ _

theorem foldl_min_le_mem {α : Type} (f : α → ℚ) (l : List α) :
    ∀ (a : ℚ) (x : α), x ∈ l → l.foldl (fun acc y => min acc (f y)) a ≤ f x := by
  induction l with
  | nil => intro a x hx; exact absurd hx (List.not_mem_nil x)
  | cons z l ih =>
      intro a x hx
      rcases List.mem_cons.mp hx with h | h
      · subst h
        calc (x :: l).foldl (fun acc y => min acc (f y)) a
            = l.foldl (fun acc y => min acc (f y)) (min a (f x)) := rfl
          _ ≤ min a (f x) := foldl_min_le_init f l _
          _ ≤ f x := min_le_right _ _
      · exact ih _ x h

theorem le_foldl_min {α : Type} (f : α → ℚ) (l : List α) :
    ∀ a c : ℚ, c ≤ a → (∀ x ∈ l, c ≤ f x) →
      c ≤ l.foldl (fun acc y => min acc (f y)) a := by
  induction l with
  | nil => intro a c ha _; exact ha
  | cons z l ih =>
      intro a c ha hl
      exact ih _ c (le_min ha (hl z (List.mem_cons_self z l)))
        fun x hx => hl x (List.mem_cons_of_mem z hx)

theorem init_le_foldl_max {α : Type} (f : α → ℚ) (l : List α) :
    ∀ a : ℚ, a ≤ l.foldl (fun acc x => max acc (f x)) a := by
  induction l with
  | nil => intro a; exact le_refl a
  | cons x l ih =>
      intro a
      calc a ≤ max a (f x) := le_max_left _ _
        _ ≤ l.foldl (fun acc y => max acc (f y)) (max a (f x)) := ih _
        _ = (x :: l).foldl (fun acc y => max acc (f y)) a := rfl

theorem mem_le_foldl_max {α : Type} (f : α → ℚ) (l : List α) :
    ∀ (a : ℚ) (x : α), x ∈ l → f x ≤ l.foldl (fun acc y => max acc (f y)) a := by
  induction l with
  | nil => intro a x hx; exact absurd hx (List.not_mem_nil x)
  | cons z l ih =>
      intro a x hx
      rcases List.mem_cons.mp hx with h | h
      · subst h
        calc f x ≤ max a (f x) := le_max_right _ _
          _ ≤ l.foldl (fun acc y => max acc (f y)) (max a (f x)) :=
              init_le_foldl_max f l _
          _ = (x :: l).foldl (fun acc y => max acc (f y)) a := rfl
      · exact ih _ x h

theorem foldl_max_le {α : Type} (f : α → ℚ) (l : List α) :
    ∀ a c : ℚ, a ≤ c → (∀ x ∈ l, f x ≤ c) →
      l.foldl (fun acc y => max acc (f y)) a ≤ c := by
  induction l with
  | nil => intro a c ha _; exact ha
  | cons z l ih =>
      intro a c ha hl
      exact ih _ c (max_le ha (hl z (List.mem_cons_self z l)))
        fun x hx => hl x (List.mem_cons_of_mem z hx)

/-- C4: Whenever the visible subset V is non-empty, `FitBoundsToLocations`
instructs the map to frame the smallest bounding box containing all
coordinates of V — every coordinate lies inside the box and every box
containing all coordinates contains it — expanded by the fixed padding
[50, 50]; whenever V is empty, no bounds adjustment occurs and the map keeps
its prior view. -/
theorem fit_bounds_frames_minimal_box (V : List Location) (prior : MapView) :
    (V = [] → fitBoundsToLocations V prior = prior) ∧
    ∀ l ls, V = l :: ls →
      ∃ b : LatLngBounds,
        fitBoundsToLocations V prior = MapView.fitted b (50, 50) ∧
        (∀ x ∈ V, b.containsPt x.coordinates) ∧
        ∀ b' : LatLngBounds, (∀ x ∈ V, b'.containsPt x.coordinates) →
          b'.south ≤ b.south ∧ b.north ≤ b'.north ∧
          b'.west ≤ b.west ∧ b.east ≤ b'.east := by
  constructor
  · intro h
    subst h
    rfl
  · intro l ls hV
    subst hV
    have hfit : fitBoundsToLocations (l :: ls) prior =
        MapView.fitted (latLngBoundsOf l.coordinates (ls.map fun x => x.coordinates))
          (50, 50) := rfl
    refine ⟨latLngBoundsOf l.coordinates (ls.map fun x => x.coordinates),
      hfit, ?_, ?_⟩
    · intro x hx
      rcases List.mem_cons.mp hx with h | h
      · subst h
        exact ⟨foldl_min_le_init Prod.fst _ _, init_le_foldl_max Prod.fst _ _,
          foldl_min_le_init Prod.snd _ _, init_le_foldl_max Prod.snd _ _⟩
      · have hm : x.coordinates ∈ ls.map fun y => y.coordinates :=
          List.mem_map_of_mem _ h
        exact ⟨foldl_min_le_mem Prod.fst _ _ _ hm,
          mem_le_foldl_max Prod.fst _ _ _ hm,
          foldl_min_le_mem Prod.snd _ _ _ hm,
          mem_le_foldl_max Prod.snd _ _ _ hm⟩
    · intro b' hb'
      have hhead := hb' l (List.mem_cons_self l ls)
      have htail : ∀ q ∈ ls.map fun y => y.coordinates,
          b'.south ≤ q.1 ∧ q.1 ≤ b'.north ∧ b'.west ≤ q.2 ∧ q.2 ≤ b'.east := by
        intro q hq
        rcases List.mem_map.mp hq with ⟨y, hy, rfl⟩
        exact hb' y (List.mem_cons_of_mem l hy)
      exact ⟨le_foldl_min Prod.fst _ _ _ hhead.1
          (fun q hq => (htail q hq).1),
        foldl_max_le Prod.fst _ _ _ hhead.2.1
          (fun q hq => (htail q hq).2.1),
        le_foldl_min Prod.snd _ _ _ hhead.2.2.1
          (fun q hq => (htail q hq).2.2.1),
        foldl_max_le Prod.snd _ _ _ hhead.2.2.2
          (fun q hq => (htail q hq).2.2.2)⟩

/-- A sample location used by concrete witnesses. -/
def locW : Location :=
  { id := 1, name := "w", nameEn := "w", coordinates := (1, 2),
    description := "d", descriptionEn := "d", visitDate := "v" }

/-- Witness for C4: the empty visible set keeps the prior view, and a
singleton visible set is framed to its minimal box with padding [50, 50]. -/
theorem fit_bounds_frames_minimal_box_witness :
    fitBoundsToLocations ([] : List Location) (MapView.view (35, 105) 5) =
      MapView.view (35, 105) 5 ∧
    ∃ b : LatLngBounds,
      fitBoundsToLocations [locW] (MapView.view (35, 105) 5) =
        MapView.fitted b (50, 50) ∧
      (∀ x ∈ [locW], b.containsPt x.coordinates) ∧
      ∀ b' : LatLngBounds, (∀ x ∈ [locW], b'.containsPt x.coordinates) →
        b'.south ≤ b.south ∧ b.north ≤ b'.north ∧
        b'.west ≤ b.west ∧ b.east ≤ b'.east :=
  ⟨(fit_bounds_frames_minimal_box [] (MapView.view (35, 105) 5)).1 rfl,
    (fit_bounds_frames_minimal_box [locW] (MapView.view (35, 105) 5)).2
      locW [] rfl⟩

/-- The component's view-state: the five `useState` hooks (lines 110-114). -/
structure ComponentState where
  selectedLocation : Option Int := none
  currentMapStyle : MapStyle
  searchTerm : String := ""
  filterCategory : Option String := none
  filteredLocations : List Location := []
deriving DecidableEq

/-- Mount-time initialization of the hooks. `useState<MapStyle>(mapStyles[0])`
indexes the style list unguarded: on an empty `mapStyles` the initial style
is JS `undefined` (`none` here) and no well-formed state exists. -/
def initState (p : TravelMapProps) : Option ComponentState :=
  (p.mapStyles[0]?).map fun s =>
    { selectedLocation := none
      currentMapStyle := s
      searchTerm := ""
      filterCategory := none
      filteredLocations := p.locations }

/-- The filter `useEffect` (lines 139-159) as a state update. -/
def recomputeFiltered (p : TravelMapProps) (st : ComponentState) : ComponentState :=
  { st with
    filteredLocations := computeFiltered p.locations st.searchTerm st.filterCategory }

/-- The map-style select `onChange` handler (lines 234-237): look the chosen
name up in `mapStyles`; update `currentMapStyle` only when found. -/
def handleStyleChange (p : TravelMapProps) (v : String) (st : ComponentState) :
    ComponentState :=
  match p.mapStyles.find? fun style => style.name == v with
  | some selected => { st with currentMapStyle := selected }
  | none => st

/-- The observable pieces one render pass of the JSX (lines 166-352)
produces. -/
structure RenderOutput where
  controlsShown : Bool
  searchInputShown : Bool
  filterInputShown : Bool
  categoryOptions : List String
  tileUrl : String
  tileAttribution : String
  initialCenter : ℚ × ℚ
  initialZoom : Int
  mapView : MapView
  markers : List Location
deriving DecidableEq

/-- One render pass: the controls block is shown iff `enableSearch ||
enableFilter`, each input inside it iff its own flag also holds; the
category dropdown is built from the full `locations` prop; the tile layer
uses the current style's url/attribution; the `MapContainer` gets
`defaultCenter`/`defaultZoom`; `FitBoundsToLocations` drives the camera from
the filtered list; one marker is rendered per filtered location. -/
def render (p : TravelMapProps) (st : ComponentState) : RenderOutput :=
  { controlsShown := p.enableSearch || p.enableFilter
    searchInputShown := (p.enableSearch || p.enableFilter) && p.enableSearch
    filterInputShown := (p.enableSearch || p.enableFilter) && p.enableFilter
    categoryOptions := categoryOptions p.locations
    tileUrl := st.currentMapStyle.url
    tileAttribution := st.currentMapStyle.attribution
    initialCenter := p.defaultCenter
    initialZoom := p.defaultZoom
    mapView := fitBoundsToLocations st.filteredLocations
      (MapView.view p.defaultCenter p.defaultZoom)
    markers := st.filteredLocations }

/-- C3: For every location sequence, the category option list offered by the
filter dropdown equals the distinct, non-empty category values occurring in
the full unfiltered `locations` prop, in first-occurrence order with no
duplicates; the state (hence the active search term and selected category)
plays no role. -/
theorem category_options_from_unfiltered (p : TravelMapProps) (st : ComponentState) :
    (render p st).categoryOptions = specCategoryOptions p.locations :=
  categoryOptions_eq_spec p.locations

/-- C7: two runs of the component that differ only in the `language` prop,
with identical locations, search term, and selected category, render the
same marker set: language affects only display strings. -/
theorem language_does_not_affect_markers (p : TravelMapProps) (lang : Language)
    (st : ComponentState) :
    (render { p with language := lang }
        (recomputeFiltered { p with language := lang } st)).markers =
      (render p (recomputeFiltered p st)).markers := rfl

/-- C8: selecting a map style changes only the tile layer's URL and
attribution: the marker set, the camera (bounds-fit view), the zoom and the
center are unchanged, and when the chosen name is found in the catalog the
tile layer takes exactly that style's url and attribution. -/
theorem style_switch_changes_only_tile (p : TravelMapProps) (v : String)
    (st : ComponentState) :
    ((render p (handleStyleChange p v st)).markers = (render p st).markers ∧
     (render p (handleStyleChange p v st)).mapView = (render p st).mapView ∧
     (render p (handleStyleChange p v st)).initialZoom = (render p st).initialZoom ∧
     (render p (handleStyleChange p v st)).initialCenter = (render p st).initialCenter) ∧
    ∀ s : MapStyle, (p.mapStyles.find? fun style => style.name == v) = some s →
      (render p (handleStyleChange p v st)).tileUrl = s.url ∧
      (render p (handleStyleChange p v st)).tileAttribution = s.attribution := by
  constructor
  · unfold handleStyleChange
    cases p.mapStyles.find? fun style => style.name == v with
    | none => exact ⟨rfl, rfl, rfl, rfl⟩
    | some s => exact ⟨rfl, rfl, rfl, rfl⟩
  · intro s hs
    unfold handleStyleChange
    rw [hs]
    exact ⟨rfl, rfl⟩

/-- A sample component state used by concrete witnesses. -/
def stW : ComponentState :=
  { currentMapStyle :=
      { name := "Standard",
        url := "https://{s}.tile.openstreetmap.org/{z}/{x}/{y}.png",
        attribution := "&copy; <a href=\"https://www.openstreetmap.org/copyright\">OpenStreetMap</a> contributors" } }

/-- Witness for C8 at the default catalog, selecting "Dark": markers are
unchanged and the tile URL becomes the Dark style's URL. -/
theorem style_switch_changes_only_tile_witness :
    (render ({} : TravelMapProps) (handleStyleChange {} "Dark" stW)).markers =
      (render ({} : TravelMapProps) stW).markers ∧
    (render ({} : TravelMapProps) (handleStyleChange {} "Dark" stW)).tileUrl =
      "https://{s}.basemaps.cartocdn.com/dark_all/{z}/{x}/{y}{r}.png" :=
  ⟨(style_switch_changes_only_tile {} "Dark" stW).1.1,
    ((style_switch_changes_only_tile {} "Dark" stW).2
      { name := "Dark",
        url := "https://{s}.basemaps.cartocdn.com/dark_all/{z}/{x}/{y}{r}.png",
        attribution := "&copy; <a href=\"https://www.openstreetmap.org/copyright\">OpenStreetMap</a> contributors &copy; <a href=\"https://carto.com/attributions\">CARTO</a>" }
      (by decide)).1⟩

/-- C9: the `enableSearch`/`enableFilter` flags only control whether the
input widgets are rendered; the marker set never depends on them, so a
search term or category already stored in state keeps restricting the
visible subset while its control is hidden. -/
theorem hidden_controls_do_not_disable_filters (p : TravelMapProps)
    (st : ComponentState) (b₁ b₂ : Bool) :
    (render { p with enableSearch := b₁, enableFilter := b₂ }
        (recomputeFiltered { p with enableSearch := b₁, enableFilter := b₂ } st)).markers =
      computeFiltered p.locations st.searchTerm st.filterCategory ∧
    (render { p with enableSearch := b₁, enableFilter := b₂ } st).searchInputShown = b₁ ∧
    (render { p with enableSearch := b₁, enableFilter := b₂ } st).filterInputShown = b₂ := by
  refine ⟨rfl, ?_, ?_⟩ <;> cases b₁ <;> cases b₂ <;> rfl

/-- C10: the initially selected map style is element 0 of the supplied
`mapStyles`; the access is unguarded, so a non-empty `mapStyles` is a
precondition: on a non-empty list initialization succeeds with the head as
the current style, on the empty list the initial style is `undefined` and no
well-formed state exists. -/
theorem initial_style_is_unguarded_head (p : TravelMapProps) :
    (p.mapStyles = [] → initState p = none) ∧
    ∀ s rest, p.mapStyles = s :: rest →
      ∃ st : ComponentState, initState p = some st ∧ st.currentMapStyle = s := by
  constructor
  · intro h
    unfold initState
    rw [h]
    rfl
  · intro s rest h
    have h0 : (s :: rest)[0]? = some s := by simp
    refine ⟨{ selectedLocation := none
              currentMapStyle := s
              searchTerm := ""
              filterCategory := none
              filteredLocations := p.locations }, ?_, rfl⟩
    unfold initState
    rw [h, h0]
    rfl

/-- Witness for C10: the empty catalog yields no state; the default catalog
yields the "Standard" style. -/
theorem initial_style_is_unguarded_head_witness :
    initState { mapStyles := [] } = none ∧
    ∃ st : ComponentState, initState ({} : TravelMapProps) = some st ∧
      st.currentMapStyle.name = "Standard" := by
  constructor
  · exact (initial_style_is_unguarded_head { mapStyles := [] }).1 rfl
  · obtain ⟨st, h1, h2⟩ := (initial_style_is_unguarded_head ({} : TravelMapProps)).2
      { name := "Standard",
        url := "https://{s}.tile.openstreetmap.org/{z}/{x}/{y}.png",
        attribution := "&copy; <a href=\"https://www.openstreetmap.org/copyright\">OpenStreetMap</a> contributors" }
      defaultMapStyles.tail rfl
    exact ⟨st, h1, by rw [h2]⟩

end TravelMap
